import Mathlib

/-!
Verification of the vocabulary-drill core of the RealuseEnglish repository.

The definitions below are a shallow embedding of the TypeScript source:
the `WordLearning` component (drill step state machine, text comparison,
voice-activity detection loop, speak-text request supersession), the
`storageService` mistake log, and the `audioUtils` PCM16 decoder and
global playback source.  JavaScript numbers are modelled with `Nat`,
`Int` and `ℚ`; JavaScript strings with `String`; timestamps in
milliseconds with `Nat`.  React `useState` state is collected into
explicit state records, and each event handler becomes a pure function
from state to state (plus emitted points and mistake records).
-/

namespace RealuseEnglish

/-! ## Text comparator -/

/-- JavaScript `s.toLowerCase()` restricted to the characters the app uses. -/
def jsToLower (s : String) : String := String.mk (s.toList.map Char.toLower)

/-- JavaScript `s.trim()`: drop leading and trailing whitespace. -/
def jsTrim (s : String) : String :=
  String.mk (((s.toList.dropWhile Char.isWhitespace).reverse.dropWhile
    Char.isWhitespace).reverse)

/-- The spec's `normalizeForExactMatch`: lowercase then trim. -/
def normalizeForExactMatch (s : String) : String := jsTrim (jsToLower s)

/-- The word comparison exactly as `handleWordInputSubmit` performs it:
`currentInput.toLowerCase().trim() === currentWord.word.toLowerCase()`.
Note that only the input side is trimmed. -/
def wordsMatch (input target : String) : Bool :=
  jsTrim (jsToLower input) == jsToLower target

/-- The spec's description of `wordsMatch`: both sides put through
`normalizeForExactMatch`. -/
def wordsMatchSpec (input target : String) : Bool :=
  normalizeForExactMatch input == normalizeForExactMatch target

/-- Code points of the punctuation class `[.,/#!$%^&*;:{}=\-_~()]` together
with the backquote, as used by `handleCopySentenceSubmit`. -/
def punctCodes : List Nat :=
  [46, 44, 47, 35, 33, 36, 37, 94, 38, 42, 59, 58, 123, 125, 61, 45, 95, 96, 126, 40, 41]

/-- Membership in the punctuation class stripped by sentence normalization. -/
def isPunct (c : Char) : Bool := punctCodes.contains c.toNat

/-- The `normalize` closure of `handleCopySentenceSubmit`: lowercase, delete
punctuation, trim. -/
def normalizeForSentenceMatch (s : String) : String :=
  jsTrim (String.mk ((jsToLower s).toList.filter (fun c => !isPunct c)))

/-- The `clean` closure of `handleCopySentenceSubmit`: lowercase, replace each
punctuation character by a space, trim. -/
def cleanForTokens (s : String) : String :=
  jsTrim (String.mk ((jsToLower s).toList.map (fun c => if isPunct c then ' ' else c)))

/-- Accumulating splitter: break a character list at whitespace runs into
the (reversed-accumulator) nonempty chunks. -/
def splitNonEmptyAux : List Char → List Char → List (List Char)
  | [], acc => if acc.isEmpty then [] else [acc.reverse]
  | c :: rest, acc =>
    if c.isWhitespace then
      if acc.isEmpty then splitNonEmptyAux rest [] else acc.reverse :: splitNonEmptyAux rest []
    else splitNonEmptyAux rest (c :: acc)

/-- JavaScript `s.split(/\s+/)` on a string with no leading or trailing
whitespace: runs of whitespace separate tokens, and the empty string yields
the single token `""`. -/
def splitWsJs (s : String) : List String :=
  if s = "" then [""] else (splitNonEmptyAux s.toList []).map String.mk

/-- Structured form of the hint produced by the mismatch branch of
`handleCopySentenceSubmit`. -/
inductive Diagnosis where
  | missing (expected : String)
  | typo (actual expected : String)
  | extraWords
  | generic
deriving DecidableEq

/-- The first-divergence loop of `handleCopySentenceSubmit`: walk the target
tokens in order; a missing or empty input token (JavaScript
`!inputWords[i]`) wins over a typo at the same position. -/
def diagnoseLoop : List String → List String → Option Diagnosis
  | _, [] => none
  | [], t :: _ => some (.missing t)
  | i :: is, t :: ts =>
    if i = "" then some (.missing t)
    else if i ≠ t then some (.typo i t)
    else diagnoseLoop is ts

/-- The mismatch diagnosis of `handleCopySentenceSubmit`: tokenize both
sentences with `cleanForTokens`, report the first divergence, otherwise
extra words when the input is strictly longer, otherwise a generic hint. -/
def diagnoseMismatch (input target : String) : Diagnosis :=
  let targetWords := splitWsJs (cleanForTokens target)
  let inputWords := splitWsJs (cleanForTokens input)
  match diagnoseLoop inputWords targetWords with
  | some d => d
  | none => if targetWords.length < inputWords.length then .extraWords else .generic

/-- The exact hint strings assembled by `handleCopySentenceSubmit`. -/
def msgOfDiagnosis : Diagnosis → String
  | .missing t => "Missing word: It seems you stopped before \"" ++ t ++ "\"."
  | .typo a e => "Typo detected: You wrote \"" ++ a ++ "\" but expected \"" ++ e ++ "\"."
  | .extraWords => "Extra words detected: The sentence is longer than expected."
  | .generic => "The sentence is not quite right."

/-! ## Data model of the drill component -/

/-- The `step` state of `WordLearning`. -/
inductive Step where
  | learn
  | write_word
  | copy_sentence
  | make_sentence
deriving DecidableEq

/-- The `type` discriminator of a `MistakeItem`. -/
inductive MistakeType where
  | spelling
  | grammar
deriving DecidableEq

/-- Structure `MistakeItem` from `types.ts`; optional fields become `Option`. -/
structure MistakeItem where
  id : String
  type : MistakeType
  date : String
  word : String
  userInput : Option String
  correction : Option String
  explanation : Option String
  context : Option String
  translation : Option String
deriving DecidableEq

/-- Structure `SentenceFeedback` as returned by the sentence-grading collaborator. -/
structure SentenceFeedback where
  isCorrect : Bool
  correctedSentence : Option String
  explanation : String
  explanationTranslation : String
deriving DecidableEq

/-- A follow-up chat message. -/
structure ChatMessage where
  role : String
  content : String
  translation : Option String
deriving DecidableEq

/-- Structure `WordData` from `types.ts` (the lazily fetched extras are irrelevant to
the verified handlers and omitted). -/
structure WordData where
  word : String
  phonetic : String
  definition : String
  definitionTranslation : String
  translation : String
  exampleSentence : String
  exampleTranslation : String
  syllables : String
  partOfSpeech : String
deriving DecidableEq

/-- The `useState` state of `WordLearning` that the verified handlers read or
write.  Purely visual state (syllable marks, open tab, modal flag) is
untouched by the claims and omitted. -/
structure DrillState where
  currentIndex : Nat
  step : Step
  writeCount : Nat
  currentInput : String
  sentenceInput : String
  feedback : Option SentenceFeedback
  isChecking : Bool
  copyError : Option String
  wordError : Option String
  isPlaying : Bool
  chatHistory : List ChatMessage
  questionInput : String
  hasAwardedSentencePoints : Bool
  hasAwardedPronunciationPoints : Bool
  pronunciationResult : Option Nat
  isRecording : Bool
deriving DecidableEq

/-- The component's initial state. -/
def initialDrillState : DrillState :=
  ⟨0, .learn, 0, "", "", none, false, none, none, false, [], "", false, false, none, false⟩

/-- Typing into the word input (`onChange` of the text field). -/
def setWordInput (input : String) (s : DrillState) : DrillState :=
  { s with currentInput := input }

/-- Typing into the sentence textarea. -/
def setSentenceInput (input : String) (s : DrillState) : DrillState :=
  { s with sentenceInput := input }

/-- Function `resetStepState` from `WordLearning`. -/
def resetStepState (s : DrillState) : DrillState :=
  { s with
    writeCount := 0
    currentInput := ""
    sentenceInput := ""
    feedback := none
    copyError := none
    wordError := none
    isPlaying := false
    chatHistory := []
    questionInput := ""
    hasAwardedSentencePoints := false
    hasAwardedPronunciationPoints := false
    pronunciationResult := none
    isRecording := false }

/-- Result of running a submission handler: the new component state, the
points passed to `onAddPoints`, and the mistakes passed to
`onRecordMistake`. -/
structure SubmitResult where
  state : DrillState
  points : Nat
  mistakes : List MistakeItem
deriving DecidableEq

/-- Handler `handleWordInputSubmit` (the Drill step).  `today` stands for
`new Date().toLocaleDateString()` and `nowId` for `Date.now().toString()`. -/
def handleWordInputSubmit (w : WordData) (today nowId : String) (s : DrillState) :
    SubmitResult :=
  if wordsMatch s.currentInput w.word then
    let pts := if s.writeCount < 2 then 1 else 3
    let newCount := s.writeCount + 1
    let s1 := { s with writeCount := newCount, currentInput := "", wordError := none }
    if 3 ≤ newCount then ⟨{ s1 with step := .copy_sentence }, pts, []⟩ else ⟨s1, pts, []⟩
  else
    ⟨{ s with wordError := some "Incorrect spelling. Try again!" }, 0,
      [⟨nowId, .spelling, today, w.word, some s.currentInput, some w.word, none,
        some w.definition, some w.translation⟩]⟩

/-- Handler `handleCopySentenceSubmit` (the CopySentence step). -/
def handleCopySentenceSubmit (w : WordData) (s : DrillState) : SubmitResult :=
  if normalizeForSentenceMatch s.currentInput == normalizeForSentenceMatch w.exampleSentence then
    ⟨{ s with currentInput := "", step := .make_sentence, copyError := none }, 5, []⟩
  else
    ⟨{ s with copyError := some (msgOfDiagnosis (diagnoseMismatch s.currentInput w.exampleSentence)) },
      0, []⟩

/-- Handler `handleMakeSentenceSubmit` with the grading collaborator's verdict
`result` supplied as a parameter (the `await checkSentence` result). -/
def handleMakeSentenceSubmit (w : WordData) (result : SentenceFeedback) (today nowId : String)
    (s : DrillState) : SubmitResult :=
  if jsTrim s.sentenceInput = "" then ⟨s, 0, []⟩
  else
    let s1 := { s with feedback := some result }
    if result.isCorrect && !s.hasAwardedSentencePoints then
      ⟨{ s1 with hasAwardedSentencePoints := true }, 10, []⟩
    else if !result.isCorrect then
      ⟨s1, 0,
        [⟨nowId, .grammar, today, w.word, some s.sentenceInput, result.correctedSentence,
          some result.explanation, some ("Target word: " ++ w.word), some w.translation⟩]⟩
    else ⟨s1, 0, []⟩

/-- Handler `handleRetrySentence`. -/
def handleRetrySentence (s : DrillState) : DrillState :=
  { s with
    sentenceInput := ""
    feedback := none
    isChecking := false
    chatHistory := []
    questionInput := "" }

/-- Handler `handleNextWord`; the returned flag is whether `onComplete` fired. -/
def handleNextWord (wordCount : Nat) (s : DrillState) : DrillState × Bool :=
  if s.currentIndex < wordCount - 1 then
    (resetStepState { s with currentIndex := s.currentIndex + 1, step := .learn }, false)
  else (s, true)

/-- Handler `handleJumpTo`. -/
def handleJumpTo (i : Nat) (s : DrillState) : DrillState :=
  resetStepState { s with currentIndex := i, step := .learn }

/-- Navigation `goBack`. -/
def goBack (s : DrillState) : DrillState :=
  match s.step with
  | .write_word => { s with step := .learn }
  | .copy_sentence => { s with step := .write_word }
  | .make_sentence => { s with step := .copy_sentence }
  | .learn =>
    if 0 < s.currentIndex then
      resetStepState { s with currentIndex := s.currentIndex - 1, step := .make_sentence }
    else s

/-- Navigation `goNext`; the returned flag is whether `onComplete` fired. -/
def goNext (wordCount : Nat) (s : DrillState) : DrillState × Bool :=
  match s.step with
  | .learn => ({ s with step := .write_word }, false)
  | .write_word => ({ s with step := .copy_sentence }, false)
  | .copy_sentence => ({ s with step := .make_sentence }, false)
  | .make_sentence => handleNextWord wordCount s

/-- The Learn screen's advance button: `setStep('write_word')` followed by
`resetStepState()` (which does not touch `step`). -/
def learnAdvance (s : DrillState) : DrillState :=
  { resetStepState s with step := .write_word }

/-! ## Voice-activity detection (`startRecording` / `detectSilence`) -/

/-- One tick of the `detectSilence` animation-frame loop: the analyser's
byte-domain block (values in 0..255) and the tick's `Date.now()`. -/
structure Tick where
  data : List Int
  now : Nat
deriving DecidableEq

/-- The sum of squares of normalized samples `((b - 128) / 128)^2`, exactly
as the loop accumulates it (real arithmetic models the float computation). -/
def blockSumSquares (data : List Int) : ℚ :=
  (data.map (fun b => (((b : ℚ) - 128) / 128) ^ 2)).sum

/-- The squared RMS `sum / bufferLength` of a block. -/
def blockRmsSq (data : List Int) : ℚ := blockSumSquares data / data.length

/-- The fixed speaking threshold `THRESHOLD = 0.015`. -/
def vadThreshold : ℚ := 15 / 1000

/-- Whether `rms > THRESHOLD` for the block; since both sides are
nonnegative this is the comparison of squares. -/
def exceedsThreshold (data : List Int) : Bool :=
  decide (vadThreshold ^ 2 < blockRmsSq data)

/-- The mutable refs of the silence detector: `isSpeakingRef` and
`lastSpeakingTimeRef`. -/
structure VadState where
  isSpeaking : Bool
  lastSpeakingTime : Nat
deriving DecidableEq

/-- What one `detectSilence` call does: keep going with an updated state,
stop and deliver the clip for analysis (`stopRecording(targetText)`), or
stop and discard it (`stopRecording()`). -/
inductive VadOutcome where
  | next (st : VadState)
  | stopDeliver
  | stopDiscard
deriving DecidableEq

/-- One call of `detectSilence`, with both `Date.now()` reads of the tick
modelled by the single timestamp `t.now`. -/
def detectSilenceTick (st : VadState) (t : Tick) : VadOutcome :=
  let st1 := if exceedsThreshold t.data then VadState.mk true t.now else st
  if st1.isSpeaking = true ∧ 1200 < t.now - st1.lastSpeakingTime then .stopDeliver
  else if st1.isSpeaking = false ∧ 8000 < t.now - st1.lastSpeakingTime then .stopDiscard
  else .next st1

/-- State of the refs right after `startRecording` initializes them at time
`t0`: not speaking, `lastSpeakingTimeRef = Date.now()`. -/
def initialVadState (t0 : Nat) : VadState := ⟨false, t0⟩

/-- The ticks of a run whose block exceeded the speaking threshold. -/
def speechTicks (ticks : List Tick) : List Tick :=
  ticks.filter (fun t => exceedsThreshold t.data)

/-- Whether speech has been detected at least once during the given ticks. -/
def speechDetected (ticks : List Tick) : Bool :=
  ticks.any (fun t => exceedsThreshold t.data)

/-- The timestamp of the last above-threshold tick, or the capture start
time `t0` when speech was never detected. -/
def lastSpeechTime (t0 : Nat) (ticks : List Tick) : Nat :=
  match (speechTicks ticks).getLast? with
  | some t => t.now
  | none => t0

/-- Declarative description of the detector state after a run of ticks none
of which stopped the recording. -/
def vadStateAfter (t0 : Nat) (ticks : List Tick) : VadState :=
  ⟨speechDetected ticks, lastSpeechTime t0 ticks⟩

/-! ## Speak-text supersession (`handlePlayAudio`) -/

/-- The playback-visible state around `handlePlayAudio`:
`currentAudioIdRef`, the `isPlaying` flag, the identity of the clip whose
playback was started (if any), and `isMountedRef`. -/
structure PlaybackState where
  currentAudioId : Nat
  isPlaying : Bool
  playingBuffer : Option Nat
  mounted : Bool
deriving DecidableEq

/-- The atomic segments of `handlePlayAudio` runs: issuing a request, the
continuation after `generateSpeech` resolves (with or without audio),
the catch handler, the continuation after `decodeAudioData`, and the
`onended` callback of the started clip. -/
inductive AudioEvent where
  | issue
  | speechResolved (id : Nat) (hasAudio : Bool)
  | speechFailed (id : Nat)
  | decoded (id : Nat)
  | ended (id : Nat)
deriving DecidableEq

/-- Effect of one atomic segment on the playback-visible state, with each
guard translated from the source (`!isMountedRef.current || audioId !==
currentAudioIdRef.current` before any mutation of a continuation). -/
def applyAudioEvent (s : PlaybackState) : AudioEvent → PlaybackState
  | .issue =>
    { s with currentAudioId := s.currentAudioId + 1, isPlaying := true, playingBuffer := none }
  | .speechResolved id hasAudio =>
    if s.mounted = true ∧ id = s.currentAudioId then
      if hasAudio then s else { s with isPlaying := false }
    else s
  | .speechFailed id =>
    if s.mounted = true ∧ id = s.currentAudioId then { s with isPlaying := false } else s
  | .decoded id =>
    if s.mounted = true ∧ id = s.currentAudioId then { s with playingBuffer := some id } else s
  | .ended id =>
    if s.mounted = true ∧ id = s.currentAudioId then { s with isPlaying := false } else s

/-- The request a continuation segment belongs to; `issue` is not a
continuation. -/
def audioEventId : AudioEvent → Option Nat
  | .issue => none
  | .speechResolved id _ => some id
  | .speechFailed id => some id
  | .decoded id => some id
  | .ended id => some id

/-- The request ids allocated by the `issue` events of a trace, in order. -/
def allocatedIds : PlaybackState → List AudioEvent → List Nat
  | _, [] => []
  | s, AudioEvent.issue :: rest =>
    (applyAudioEvent s .issue).currentAudioId :: allocatedIds (applyAudioEvent s .issue) rest
  | s, e :: rest => allocatedIds (applyAudioEvent s e) rest

/-! ## Global playback source (`audioUtils.ts`) -/

/-- The module-level state of `audioUtils`: `currentSource` (sources are
identified by allocation order) and a counter supplying fresh source
identities. -/
structure AudioModuleState where
  currentSource : Option Nat
  nextSourceId : Nat
deriving DecidableEq

/-- Events touching `currentSource`: `playAudioBuffer` (which first runs
`stopGlobalAudio` and then registers the fresh source), `stopGlobalAudio`,
and the (possibly late) firing of a source's `onended` handler. -/
inductive SourceEvent where
  | playNew
  | stopGlobal
  | endedFire (id : Nat)
deriving DecidableEq

/-- Effect of each event on `currentSource`, translated from
`playAudioBuffer` / `stopGlobalAudio`: the `onended` handler clears
`currentSource` only when it still refers to the very source that ended. -/
def applySourceEvent (s : AudioModuleState) : SourceEvent → AudioModuleState
  | .playNew => ⟨some s.nextSourceId, s.nextSourceId + 1⟩
  | .stopGlobal => ⟨none, s.nextSourceId⟩
  | .endedFire id => if s.currentSource = some id then ⟨none, s.nextSourceId⟩ else s

/-! ## Mistake log (`storageService.ts`) -/

/-- Function `dataService.addMistake` with the stored list and the current calendar
day (`new Date().toLocaleDateString()`) passed explicitly. -/
def addMistake (today : String) (currentMistakes : List MistakeItem) (mistake : MistakeItem) :
    List MistakeItem :=
  if currentMistakes.any (fun m =>
      m.word == mistake.word && m.type == mistake.type && m.date == today) then
    currentMistakes
  else
    mistake :: currentMistakes

/-! ## PCM16 decoding (`audioUtils.ts`, `decodeAudioData`) -/

/-- Reassemble a little-endian signed 16-bit sample from two bytes. -/
def toInt16 (lo hi : Nat) : Int :=
  if lo + 256 * hi < 32768 then ((lo : Int) + 256 * hi) else ((lo : Int) + 256 * hi) - 65536

/-- The `Int16Array` view of the byte sequence (little-endian pairs). -/
def pcm16Samples : List Nat → List Int
  | lo :: hi :: rest => toInt16 lo hi :: pcm16Samples rest
  | _ => []

/-- Function `decodeAudioData`: `frameCount = dataInt16.length / numChannels`, and
channel `ch`, frame `i` holds `dataInt16[i * numChannels + ch] / 32768`. -/
def decodeAudioData (bytes : List Nat) (numChannels : Nat) : List (List ℚ) :=
  let dataInt16 := pcm16Samples bytes
  let frameCount := dataInt16.length / numChannels
  (List.range numChannels).map (fun ch =>
    (List.range frameCount).map (fun i => ((dataInt16.getD (i * numChannels + ch) 0 : ℚ) / 32768)))

/-! ## Concrete sample data for counterexamples and witnesses -/

/-- A concrete word unit used by concrete runs. -/
def sampleWord : WordData :=
  ⟨"cat", "kat", "A small pet animal.", "t1", "t2", "The cat sat on the mat.", "t3", "cat", "noun"⟩

/-- Concrete run reaching the Learn step with a nonzero `writeCount`:
advance into Drill, submit the word correctly once, navigate back to Learn. -/
def c2LearnState : DrillState :=
  goBack (handleWordInputSubmit sampleWord "1/1/2025" "100"
    (setWordInput "cat" (learnAdvance initialDrillState))).state

/-- The state after re-entering Drill from `c2LearnState` through the
generic next-step navigation. -/
def c2DrillState : DrillState := (goNext 2 c2LearnState).1

/-- First correct Drill submission of the concrete run. -/
def c3Run1 : SubmitResult :=
  handleWordInputSubmit sampleWord "1/1/2025" "100"
    (setWordInput "cat" (learnAdvance initialDrillState))

/-- Second correct Drill submission of the concrete run. -/
def c3Run2 : SubmitResult :=
  handleWordInputSubmit sampleWord "1/1/2025" "101" (setWordInput "cat" c3Run1.state)

/-- Third correct Drill submission of the concrete run. -/
def c3Run3 : SubmitResult :=
  handleWordInputSubmit sampleWord "1/1/2025" "102" (setWordInput "cat" c3Run2.state)

/-- Position `k` diverges when the input token at `k` is absent or empty
(JavaScript `!inputWords[k]`) or differs from the target token at `k`. -/
def divergesAt (iws tws : List String) (k : Nat) : Prop :=
  iws.getD k "" = "" ∨ iws.getD k "" ≠ tws.getD k ""

instance (iws tws : List String) (k : Nat) : Decidable (divergesAt iws tws k) := by
  unfold divergesAt; infer_instance

/-! ## Theorems -/

/-- C1: the claim as stated is false on the code: `handleWordInputSubmit`
trims only the input side, so a target padded with whitespace never
matches even though both sides agree after `normalizeForExactMatch`. -/
theorem C1_counterexample :
    wordsMatch "Photosynthesis" "  photosynthesis " = false
    ∧ normalizeForExactMatch "Photosynthesis" = normalizeForExactMatch "  photosynthesis " := by
  exact ⟨by decide, by decide⟩

/-- C1 (amended): `wordsMatch input target` is true exactly when
`normalizeForExactMatch input` equals the merely lowercased (untrimmed)
target; `wordsMatch("  Photosynthesis ", "photosynthesis")` is true and
`wordsMatch("photosynthesi", "photosynthesis")` is false. -/
theorem C1_amended_wordsMatch :
    (∀ input target : String,
      wordsMatch input target = true ↔ normalizeForExactMatch input = jsToLower target)
    ∧ wordsMatch "  Photosynthesis " "photosynthesis" = true
    ∧ wordsMatch "photosynthesi" "photosynthesis" = false := by
  refine ⟨fun input target => ?_, by decide, by decide⟩
  simp [wordsMatch, normalizeForExactMatch]

/-- C2: the claim as stated is false on the code: from a reachable Learn
state with `writeCount = 1`, the generic next-step navigation enters the
Drill step with `writeCount` still 1. -/
theorem C2_counterexample :
    c2LearnState.step = Step.learn ∧ c2LearnState.writeCount = 1
    ∧ c2DrillState.step = Step.write_word ∧ c2DrillState.writeCount = 1 := by
  decide

/-- C2 (amended): `writeCount` is 0 after every word change (next word,
jump to word, back across a word boundary) and after entering Drill
through the Learn screen's advance button, but the generic next-step
navigation from Learn enters Drill with `writeCount` unchanged. -/
theorem C2_amended_repetition_reset (s : DrillState) (wordCount i : Nat) :
    (learnAdvance s).writeCount = 0
    ∧ (handleJumpTo i s).writeCount = 0
    ∧ (s.currentIndex < wordCount - 1 → ((handleNextWord wordCount s).1).writeCount = 0)
    ∧ (s.step = Step.learn → 0 < s.currentIndex → (goBack s).writeCount = 0)
    ∧ (s.step = Step.learn → ((goNext wordCount s).1).writeCount = s.writeCount) := by
  refine ⟨rfl, rfl, fun h => ?_, fun hs hi => ?_, fun hs => ?_⟩
  · simp [handleNextWord, h, resetStepState]
  · simp [goBack, hs, hi, resetStepState]
  · simp [goNext, hs]

/-- Witness for the amended C2 at a concrete reachable state. -/
theorem C2_amended_repetition_reset_witness :
    (learnAdvance initialDrillState).writeCount = 0
    ∧ ((goNext 2 c2LearnState).1).writeCount = c2LearnState.writeCount := by
  refine ⟨(C2_amended_repetition_reset initialDrillState 2 1).1, ?_⟩
  exact (C2_amended_repetition_reset c2LearnState 2 1).2.2.2.2 (by decide)

/-- C3: in Drill, a matching submission awards 1 point while
`writeCount < 2` and 3 points at `writeCount = 2`, increments the count,
and transitions to CopySentence exactly on reaching 3; a mismatching
submission leaves count and step unchanged, awards nothing, and emits one
spelling mistake record; the concrete three-in-a-row run awards
+1, +1, +3 and then transitions. -/
theorem C3_drill_submit (w : WordData) (today nowId : String) (s : DrillState) :
    (wordsMatch s.currentInput w.word = true →
      (handleWordInputSubmit w today nowId s).points = (if s.writeCount < 2 then 1 else 3)
      ∧ (handleWordInputSubmit w today nowId s).state.writeCount = s.writeCount + 1
      ∧ (handleWordInputSubmit w today nowId s).state.step
          = (if 3 ≤ s.writeCount + 1 then Step.copy_sentence else s.step)
      ∧ (handleWordInputSubmit w today nowId s).mistakes = [])
    ∧ (wordsMatch s.currentInput w.word = false →
      (handleWordInputSubmit w today nowId s).state.writeCount = s.writeCount
      ∧ (handleWordInputSubmit w today nowId s).state.step = s.step
      ∧ (handleWordInputSubmit w today nowId s).points = 0
      ∧ (handleWordInputSubmit w today nowId s).mistakes
          = [⟨nowId, .spelling, today, w.word, some s.currentInput, some w.word, none,
              some w.definition, some w.translation⟩])
    ∧ (c3Run1.points = 1 ∧ c3Run2.points = 1 ∧ c3Run3.points = 3
      ∧ c3Run1.state.step = Step.write_word ∧ c3Run2.state.step = Step.write_word
      ∧ c3Run3.state.step = Step.copy_sentence) := by
  refine ⟨fun hm => ?_, fun hm => ?_, by decide⟩
  · by_cases h3 : 3 ≤ s.writeCount + 1 <;>
      simp [handleWordInputSubmit, hm, h3]
  · simp [handleWordInputSubmit, hm]

/-- Witness for C3 at a concrete matching and a concrete mismatching
submission. -/
theorem C3_drill_submit_witness :
    c3Run1.points = 1
    ∧ (handleWordInputSubmit sampleWord "1/1/2025" "103"
        (setWordInput "kat" c3Run1.state)).points = 0 := by
  constructor
  · exact (C3_drill_submit sampleWord "1/1/2025" "100"
      (setWordInput "cat" (learnAdvance initialDrillState))).2.2.1
  · exact ((C3_drill_submit sampleWord "1/1/2025" "103"
      (setWordInput "kat" c3Run1.state)).2.1 (by decide)).2.2.1

/-- C4: in MakeSentence, 10 points are awarded exactly on a correct verdict
with the per-word flag unset (and that submission sets the flag); a correct
verdict with the flag already set awards nothing; an incorrect verdict
awards nothing and emits one grammar mistake record; a retry clears
feedback, input and chat history but never the flag. -/
theorem C4_make_sentence (w : WordData) (fb : SentenceFeedback) (today nowId : String)
    (s : DrillState) (hne : ¬ jsTrim s.sentenceInput = "") :
    (fb.isCorrect = true → s.hasAwardedSentencePoints = false →
      (handleMakeSentenceSubmit w fb today nowId s).points = 10
      ∧ (handleMakeSentenceSubmit w fb today nowId s).state.hasAwardedSentencePoints = true
      ∧ (handleMakeSentenceSubmit w fb today nowId s).mistakes = [])
    ∧ (fb.isCorrect = true → s.hasAwardedSentencePoints = true →
      (handleMakeSentenceSubmit w fb today nowId s).points = 0
      ∧ (handleMakeSentenceSubmit w fb today nowId s).mistakes = []
      ∧ (handleMakeSentenceSubmit w fb today nowId s).state.hasAwardedSentencePoints = true)
    ∧ (fb.isCorrect = false →
      (handleMakeSentenceSubmit w fb today nowId s).points = 0
      ∧ (handleMakeSentenceSubmit w fb today nowId s).mistakes
          = [⟨nowId, .grammar, today, w.word, some s.sentenceInput, fb.correctedSentence,
              some fb.explanation, some ("Target word: " ++ w.word), some w.translation⟩]
      ∧ (handleMakeSentenceSubmit w fb today nowId s).state.hasAwardedSentencePoints
          = s.hasAwardedSentencePoints)
    ∧ (handleRetrySentence s).hasAwardedSentencePoints = s.hasAwardedSentencePoints
    ∧ (handleRetrySentence s).feedback = none
    ∧ (handleRetrySentence s).chatHistory = []
    ∧ (handleRetrySentence s).sentenceInput = "" := by
  refine ⟨fun hc hf => ?_, fun hc hf => ?_, fun hc => ?_, rfl, rfl, rfl, rfl⟩
  · simp [handleMakeSentenceSubmit, hne, hc, hf]
  · simp [handleMakeSentenceSubmit, hne, hc, hf]
  · simp [handleMakeSentenceSubmit, hne, hc]

/-- Witness for C4: the incorrect-then-correct-then-resubmit scenario on a
concrete state. -/
theorem C4_make_sentence_witness :
    (handleMakeSentenceSubmit sampleWord ⟨true, none, "good", "t"⟩ "1/1/2025" "104"
      (setSentenceInput "The cat naps." initialDrillState)).points = 10
    ∧ (handleMakeSentenceSubmit sampleWord ⟨true, none, "good", "t"⟩ "1/1/2025" "105"
      { (setSentenceInput "The cat naps." initialDrillState) with
        hasAwardedSentencePoints := true }).points = 0
    ∧ (handleMakeSentenceSubmit sampleWord ⟨false, some "The cat naps.", "bad", "t"⟩
      "1/1/2025" "106" (setSentenceInput "Cat nap the." initialDrillState)).mistakes.length = 1 := by
  refine ⟨?_, ?_, ?_⟩
  · exact ((C4_make_sentence sampleWord ⟨true, none, "good", "t"⟩ "1/1/2025" "104"
      (setSentenceInput "The cat naps." initialDrillState) (by decide)) |>.1 rfl rfl).1
  · exact ((C4_make_sentence sampleWord ⟨true, none, "good", "t"⟩ "1/1/2025" "105"
      { (setSentenceInput "The cat naps." initialDrillState) with
        hasAwardedSentencePoints := true } (by decide)) |>.2.1 rfl rfl).1
  · have h := ((C4_make_sentence sampleWord ⟨false, some "The cat naps.", "bad", "t"⟩
      "1/1/2025" "106" (setSentenceInput "Cat nap the." initialDrillState) (by decide)) |>.2.2.1 rfl).2.1
    simp [h]

/-- C8: `addMistake` prepends the new record exactly when the stored list
has no entry with the same word, same kind and date equal to the current
calendar day; otherwise the list is unchanged; in particular repeating the
same mistake on the same day (a record dated today) inserts exactly one
record. -/
theorem C8_addMistake (today : String) (l : List MistakeItem) (m : MistakeItem) :
    ((¬ ∃ x ∈ l, x.word = m.word ∧ x.type = m.type ∧ x.date = today) →
      addMistake today l m = m :: l)
    ∧ ((∃ x ∈ l, x.word = m.word ∧ x.type = m.type ∧ x.date = today) →
      addMistake today l m = l)
    ∧ (m.date = today →
      addMistake today (addMistake today l m) m = addMistake today l m) := by
  have hany : (l.any (fun x =>
      x.word == m.word && x.type == m.type && x.date == today) = true)
      ↔ ∃ x ∈ l, x.word = m.word ∧ x.type = m.type ∧ x.date = today := by
    simp [List.any_eq_true, and_assoc]
  refine ⟨fun h => ?_, fun h => ?_, fun hd => ?_⟩
  · rw [addMistake, if_neg]
    simp [hany, h]
  · rw [addMistake, if_pos]
    exact hany.mpr h
  · by_cases h : ∃ x ∈ l, x.word = m.word ∧ x.type = m.type ∧ x.date = today
    · have h1 : addMistake today l m = l := by rw [addMistake, if_pos (hany.mpr h)]
      rw [h1, addMistake, if_pos (hany.mpr h)]
    · have h1 : addMistake today l m = m :: l := by
        rw [addMistake, if_neg]; simp [hany, h]
      rw [h1, addMistake, if_pos]
      simp [hd]

/-- Witness for C8: a fresh mistake is inserted once and not re-inserted on
the same day. -/
theorem C8_addMistake_witness :
    addMistake "1/1/2025" []
      ⟨"1", MistakeType.spelling, "1/1/2025", "cat", some "kat", some "cat", none, none, none⟩
      = [⟨"1", MistakeType.spelling, "1/1/2025", "cat", some "kat", some "cat", none, none, none⟩]
    ∧ addMistake "1/1/2025"
        [⟨"1", MistakeType.spelling, "1/1/2025", "cat", some "kat", some "cat", none, none, none⟩]
        ⟨"2", MistakeType.spelling, "1/1/2025", "cat", some "kta", some "cat", none, none, none⟩
      = [⟨"1", MistakeType.spelling, "1/1/2025", "cat", some "kat", some "cat", none, none, none⟩] := by
  constructor
  · exact (C8_addMistake "1/1/2025" []
      ⟨"1", MistakeType.spelling, "1/1/2025", "cat", some "kat", some "cat", none, none, none⟩).1
      (by simp)
  · exact (C8_addMistake "1/1/2025"
      [⟨"1", MistakeType.spelling, "1/1/2025", "cat", some "kat", some "cat", none, none, none⟩]
      ⟨"2", MistakeType.spelling, "1/1/2025", "cat", some "kta", some "cat", none, none, none⟩).2.1
      (by simp)

/-- C10: a late `onended` of a superseded source leaves `currentSource`
pointing at the newly started source, and `currentSource` can only be
cleared by `stopGlobalAudio` or by the `onended` of the very source it
references. -/
theorem C10_currentSource (s : AudioModuleState) (x : Nat) (e : SourceEvent) :
    (applySourceEvent (applySourceEvent (applySourceEvent s .playNew) .playNew)
        (.endedFire s.nextSourceId)
      = applySourceEvent (applySourceEvent s .playNew) .playNew)
    ∧ ((applySourceEvent (applySourceEvent s .playNew) .playNew).currentSource
        = some (s.nextSourceId + 1))
    ∧ (s.currentSource = some x → (applySourceEvent s e).currentSource = none →
      e = .stopGlobal ∨ e = .endedFire x) := by
  refine ⟨?_, rfl, fun hx hnone => ?_⟩
  · simp [applySourceEvent]
  · cases e with
    | playNew => simp [applySourceEvent] at hnone
    | stopGlobal => exact Or.inl rfl
    | endedFire id =>
      refine Or.inr ?_
      by_cases hid : s.currentSource = some id
      · rw [hx] at hid
        simp at hid
        rw [hid]
      · rw [applySourceEvent, if_neg hid, hx] at hnone
        simp at hnone

/-- Witness for C10 at a concrete module state. -/
theorem C10_currentSource_witness :
    applySourceEvent (applySourceEvent (applySourceEvent ⟨none, 0⟩ .playNew) .playNew)
        (.endedFire 0)
      = applySourceEvent (applySourceEvent (⟨none, 0⟩ : AudioModuleState) .playNew) .playNew
    ∧ (SourceEvent.stopGlobal = SourceEvent.stopGlobal ∨ SourceEvent.stopGlobal = .endedFire 7) := by
  refine ⟨(C10_currentSource ⟨none, 0⟩ 7 .stopGlobal).1, ?_⟩
  exact (C10_currentSource ⟨some 7, 3⟩ 7 .stopGlobal).2.2 rfl rfl

/-- No event decreases the request counter. -/
lemma applyAudioEvent_mono (s : PlaybackState) (e : AudioEvent) :
    s.currentAudioId ≤ (applyAudioEvent s e).currentAudioId := by
  cases e <;> simp only [applyAudioEvent] <;> first
    | omega
    | (split
       · split <;> simp
       · simp)
    | (split <;> simp)

/-- Every id allocated after state `s` is strictly larger than `s`'s
counter. -/
lemma allocatedIds_gt (s : PlaybackState) (es : List AudioEvent) :
    ∀ x ∈ allocatedIds s es, s.currentAudioId < x := by
  induction es generalizing s with
  | nil => simp [allocatedIds]
  | cons e rest ih =>
    intro x hx
    cases e with
    | issue =>
      simp only [allocatedIds, List.mem_cons] at hx
      rcases hx with rfl | hx
      · simp [applyAudioEvent]
      · have h1 := ih (applyAudioEvent s .issue) x hx
        have h2 : (applyAudioEvent s .issue).currentAudioId = s.currentAudioId + 1 := rfl
        omega
    | speechResolved id b =>
      have h1 := ih (applyAudioEvent s (.speechResolved id b)) x (by simpa [allocatedIds] using hx)
      have h2 := applyAudioEvent_mono s (.speechResolved id b)
      omega
    | speechFailed id =>
      have h1 := ih (applyAudioEvent s (.speechFailed id)) x (by simpa [allocatedIds] using hx)
      have h2 := applyAudioEvent_mono s (.speechFailed id)
      omega
    | decoded id =>
      have h1 := ih (applyAudioEvent s (.decoded id)) x (by simpa [allocatedIds] using hx)
      have h2 := applyAudioEvent_mono s (.decoded id)
      omega
    | ended id =>
      have h1 := ih (applyAudioEvent s (.ended id)) x (by simpa [allocatedIds] using hx)
      have h2 := applyAudioEvent_mono s (.ended id)
      omega

/-- The allocated ids of any trace are strictly increasing. -/
lemma allocatedIds_chain (s : PlaybackState) (es : List AudioEvent) :
    List.Chain' (· < ·) (allocatedIds s es) := by
  induction es generalizing s with
  | nil => simp [allocatedIds]
  | cons e rest ih =>
    cases e with
    | issue =>
      simp only [allocatedIds]
      refine List.chain'_cons'.mpr ⟨fun y hy => ?_, ih _⟩
      exact allocatedIds_gt _ _ y (List.mem_of_mem_head? hy)
    | speechResolved id b => simpa [allocatedIds] using ih (applyAudioEvent s (.speechResolved id b))
    | speechFailed id => simpa [allocatedIds] using ih (applyAudioEvent s (.speechFailed id))
    | decoded id => simpa [allocatedIds] using ih (applyAudioEvent s (.decoded id))
    | ended id => simpa [allocatedIds] using ih (applyAudioEvent s (.ended id))

/-- C6: issuing a speak-text request allocates the next id (so ids allocated
along any trace are strictly increasing), and a continuation whose request
id no longer equals the most recently issued id leaves the playback-visible
state completely unchanged. -/
theorem C6_request_supersession (s : PlaybackState) (es : List AudioEvent) (e : AudioEvent)
    (i : Nat) :
    (applyAudioEvent s .issue).currentAudioId = s.currentAudioId + 1
    ∧ List.Chain' (· < ·) (allocatedIds s es)
    ∧ (audioEventId e = some i → i ≠ s.currentAudioId → applyAudioEvent s e = s) := by
  refine ⟨rfl, allocatedIds_chain s es, fun hid hne => ?_⟩
  cases e with
  | issue => simp [audioEventId] at hid
  | speechResolved id b =>
    have h : id = i := by simpa [audioEventId] using hid
    subst h
    simp [applyAudioEvent, hne]
  | speechFailed id =>
    have h : id = i := by simpa [audioEventId] using hid
    subst h
    simp [applyAudioEvent, hne]
  | decoded id =>
    have h : id = i := by simpa [audioEventId] using hid
    subst h
    simp [applyAudioEvent, hne]
  | ended id =>
    have h : id = i := by simpa [audioEventId] using hid
    subst h
    simp [applyAudioEvent, hne]

/-- Witness for C6: a concrete superseded `onended` continuation is a
no-op. -/
theorem C6_request_supersession_witness :
    (applyAudioEvent ⟨0, false, none, true⟩ .issue).currentAudioId = 1
    ∧ applyAudioEvent ⟨0, false, none, true⟩ (.ended 5) = ⟨0, false, none, true⟩ := by
  have h := C6_request_supersession ⟨0, false, none, true⟩ [.issue, .issue] (.ended 5) 5
  exact ⟨h.1, h.2.2 rfl (by decide)⟩

/-- The `Int16Array` view holds one sample per byte pair. -/
lemma pcm16Samples_length : ∀ bytes : List Nat, (pcm16Samples bytes).length = bytes.length / 2
  | [] => by simp [pcm16Samples]
  | [_] => by simp [pcm16Samples]
  | _ :: _ :: rest => by
    simp only [pcm16Samples, List.length_cons, pcm16Samples_length rest]
    omega

/-- Every decoded 16-bit sample lies in the signed 16-bit range. -/
lemma pcm16Samples_bounds : ∀ bytes : List Nat, (∀ b ∈ bytes, b < 256) →
    ∀ v ∈ pcm16Samples bytes, -32768 ≤ v ∧ v ≤ 32767
  | [], _ => by simp [pcm16Samples]
  | [_], _ => by simp [pcm16Samples]
  | lo :: hi :: rest, hb => by
    intro v hv
    simp only [pcm16Samples, List.mem_cons] at hv
    rcases hv with rfl | hv
    · have hlo : lo < 256 := hb lo (by simp)
      have hhi : hi < 256 := hb hi (by simp)
      simp only [toInt16]
      split <;> omega
    · exact pcm16Samples_bounds rest (fun b hbm => hb b (by simp [hbm])) v hv

/-- C9: decoding an even-length byte sequence as PCM16 with one channel
yields one channel of exactly `byteLength / 2` frames, each frame the
little-endian signed 16-bit sample divided by 32768 and lying in
`[-1, 1]`. -/
theorem C9_pcm16_decode (bytes : List Nat) (heven : bytes.length % 2 = 0)
    (hb : ∀ b ∈ bytes, b < 256) :
    (decodeAudioData bytes 1).length = 1
    ∧ ((decodeAudioData bytes 1).getD 0 []).length = bytes.length / 2
    ∧ (∀ q ∈ (decodeAudioData bytes 1).getD 0 [], -1 ≤ q ∧ q ≤ 1) := by
  have huf : decodeAudioData bytes 1
      = [(List.range (pcm16Samples bytes).length).map
          (fun i => (((pcm16Samples bytes).getD i 0 : ℚ) / 32768))] := by
    have hr : List.range 1 = [0] := rfl
    simp only [decodeAudioData, Nat.div_one, hr, List.map_cons, List.map_nil,
      mul_one, add_zero]
  refine ⟨by rw [huf]; rfl, ?_, ?_⟩
  · rw [huf, List.getD_cons_zero]
    simp [pcm16Samples_length bytes]
  · intro q hq
    rw [huf, List.getD_cons_zero] at hq
    obtain ⟨i, hi, rfl⟩ := List.mem_map.mp hq
    rw [List.mem_range] at hi
    have hvmem : (pcm16Samples bytes).getD i 0 ∈ pcm16Samples bytes := by
      rw [List.getD_eq_getElem _ _ hi]
      exact List.getElem_mem hi
    have hv := pcm16Samples_bounds bytes hb _ hvmem
    constructor
    · rw [le_div_iff₀ (by norm_num : (0:ℚ) < 32768)]
      have hc : (-32768 : ℚ) ≤ (((pcm16Samples bytes).getD i 0 : Int) : ℚ) := by
        exact_mod_cast hv.1
      linarith
    · rw [div_le_one (by norm_num : (0:ℚ) < 32768)]
      have hc : (((pcm16Samples bytes).getD i 0 : Int) : ℚ) ≤ 32767 := by
        exact_mod_cast hv.2
      linarith

/-- Witness for C9 on a concrete 4-byte clip (samples -32768 and 32767). -/
theorem C9_pcm16_decode_witness :
    ((decodeAudioData [0, 128, 255, 127] 1).getD 0 []).length = 2 := by
  have h := (C9_pcm16_decode [0, 128, 255, 127] (by decide) (by decide)).2.1
  simpa using h

/-- Appending a tick extends the speech-detected flag disjunctively. -/
lemma speechDetected_append (pre : List Tick) (t : Tick) :
    speechDetected (pre ++ [t]) = (speechDetected pre || exceedsThreshold t.data) := by
  simp [speechDetected, List.any_append]

/-- Appending a tick keeps or refreshes the last-speech timestamp. -/
lemma lastSpeechTime_append (t0 : Nat) (pre : List Tick) (t : Tick) :
    lastSpeechTime t0 (pre ++ [t])
      = if exceedsThreshold t.data then t.now else lastSpeechTime t0 pre := by
  have hft : speechTicks (pre ++ [t])
      = speechTicks pre ++ if exceedsThreshold t.data then [t] else [] := by
    simp only [speechTicks, List.filter_append, List.filter]
    cases hx : exceedsThreshold t.data <;> simp [hx]
  by_cases h : exceedsThreshold t.data
  · rw [lastSpeechTime, hft, if_pos h, if_pos h, List.getLast?_concat]
  · rw [lastSpeechTime, hft, if_neg h, if_neg h, List.append_nil, lastSpeechTime]

/-- While speech was never detected, the last-speech timestamp is still the
capture start time. -/
lemma lastSpeechTime_of_silent (t0 : Nat) (pre : List Tick)
    (h : speechDetected pre = false) : lastSpeechTime t0 pre = t0 := by
  have hnil : speechTicks pre = [] := by
    rw [speechTicks, List.filter_eq_nil_iff]
    simpa [speechDetected, List.any_eq_false] using h
  rw [lastSpeechTime, hnil]
  rfl

/-- C5: run from any prefix of non-stopping ticks, one call of the sampling
loop stops with delivery exactly when speech has been detected at least
once and more than 1200 ms passed since the last above-threshold tick,
stops discarding the clip exactly when speech was never detected and more
than 8000 ms passed since capture began, and otherwise keeps recording
with the declaratively described detector state. -/
theorem C5_vad_autostop (t0 : Nat) (pre : List Tick) (t : Tick) :
    detectSilenceTick (vadStateAfter t0 pre) t =
      (if speechDetected (pre ++ [t]) = true
          ∧ 1200 < t.now - lastSpeechTime t0 (pre ++ [t]) then
        VadOutcome.stopDeliver
      else if speechDetected (pre ++ [t]) = false ∧ 8000 < t.now - t0 then
        VadOutcome.stopDiscard
      else VadOutcome.next (vadStateAfter t0 (pre ++ [t]))) := by
  by_cases hx : exceedsThreshold t.data
  · have h1 : speechDetected (pre ++ [t]) = true := by
      simp [speechDetected_append, hx]
    have h2 : lastSpeechTime t0 (pre ++ [t]) = t.now := by
      simp [lastSpeechTime_append, hx]
    have h3 : vadStateAfter t0 (pre ++ [t]) = ⟨true, t.now⟩ := by
      rw [vadStateAfter, h1, h2]
    simp [detectSilenceTick, hx, h1, h2, h3]
  · have h1 : speechDetected (pre ++ [t]) = speechDetected pre := by
      simp [speechDetected_append, hx]
    have h2 : lastSpeechTime t0 (pre ++ [t]) = lastSpeechTime t0 pre := by
      simp [lastSpeechTime_append, hx]
    have h3 : vadStateAfter t0 (pre ++ [t]) = vadStateAfter t0 pre := by
      rw [vadStateAfter, h1, h2, vadStateAfter]
    by_cases hs : speechDetected pre = true
    · simp [detectSilenceTick, hx, vadStateAfter, h1, h2, h3, hs]
    · have hs' : speechDetected pre = false := by
        simpa using hs
      have h4 : lastSpeechTime t0 pre = t0 := lastSpeechTime_of_silent t0 pre hs'
      simp [detectSilenceTick, hx, vadStateAfter, h1, h2, h3, hs', h4]

/-- When no position up to the end of the target diverges, the
first-divergence loop reports nothing. -/
lemma diagnoseLoop_eq_none (iws tws : List String)
    (h : ∀ k < tws.length, ¬ divergesAt iws tws k) : diagnoseLoop iws tws = none := by
  induction tws generalizing iws with
  | nil => cases iws <;> rfl
  | cons t ts ih =>
    cases iws with
    | nil => exact absurd (Or.inl (by simp)) (h 0 (by simp))
    | cons i is =>
      have hi : ¬ (i = "" ∨ ¬ i = t) := by
        simpa [divergesAt] using h 0 (by simp)
      push_neg at hi
      simp only [diagnoseLoop]
      rw [if_neg hi.1, if_neg (by simp [hi.2])]
      refine ih is (fun k hk => ?_)
      have hks := h (k + 1) (by simpa using hk)
      simpa [divergesAt] using hks

/-- The loop reports exactly the first diverging position: a missing word
when the input token there is absent or empty, otherwise a typo with the
two tokens. -/
lemma diagnoseLoop_eq_some (iws tws : List String) (k : Nat) (hk : k < tws.length)
    (hmin : ∀ j < k, ¬ divergesAt iws tws j) (hbad : divergesAt iws tws k) :
    diagnoseLoop iws tws
      = some (if iws.getD k "" = "" then Diagnosis.missing (tws.getD k "")
              else Diagnosis.typo (iws.getD k "") (tws.getD k "")) := by
  induction k generalizing iws tws with
  | zero =>
    cases tws with
    | nil => simp at hk
    | cons t ts =>
      cases iws with
      | nil => simp [diagnoseLoop]
      | cons i is =>
        by_cases hie : i = ""
        · simp [diagnoseLoop, hie]
        · have hit : i ≠ t := by
            rcases hbad with hb | hb
            · exact absurd (by simpa using hb) hie
            · simpa using hb
          simp [diagnoseLoop, hie, hit]
  | succ k ih =>
    cases tws with
    | nil => simp at hk
    | cons t ts =>
      cases iws with
      | nil => exact absurd (Or.inl (by simp)) (hmin 0 (Nat.succ_pos k))
      | cons i is =>
        have hi : ¬ (i = "" ∨ ¬ i = t) := by
          simpa [divergesAt] using hmin 0 (Nat.succ_pos k)
        push_neg at hi
        simp only [diagnoseLoop]
        rw [if_neg hi.1, if_neg (by simp [hi.2])]
        have hrec := ih is ts (by simpa using hk)
          (fun j hj => by
            have hmj := hmin (j + 1) (by omega)
            simpa [divergesAt] using hmj)
          (by simpa [divergesAt] using hbad)
        simpa using hrec

/-- C7: a CopySentence submission whose normalized form equals the
normalized example sentence awards 5 points, clears the input and
transitions to MakeSentence; otherwise nothing transitions, nothing is
logged, no points are awarded, and the surfaced hint is the message of
`diagnoseMismatch`, which reports only the first divergence (first absent
input token as a missing word, else first unequal token pair as a typo,
else extra words exactly when the input has strictly more tokens, else a
generic mismatch); concretely, diagnosing "I like the dog" against
"I like the cat" yields Typo("dog", "cat"). -/
theorem C7_copy_sentence (w : WordData) (s : DrillState) (iws tws : List String) (k : Nat) :
    (normalizeForSentenceMatch s.currentInput = normalizeForSentenceMatch w.exampleSentence →
      handleCopySentenceSubmit w s
        = ⟨{ s with currentInput := "", step := .make_sentence, copyError := none }, 5, []⟩)
    ∧ (normalizeForSentenceMatch s.currentInput ≠ normalizeForSentenceMatch w.exampleSentence →
      (handleCopySentenceSubmit w s).state.step = s.step
      ∧ (handleCopySentenceSubmit w s).points = 0
      ∧ (handleCopySentenceSubmit w s).mistakes = []
      ∧ (handleCopySentenceSubmit w s).state.copyError
          = some (msgOfDiagnosis (diagnoseMismatch s.currentInput w.exampleSentence)))
    ∧ (k < tws.length → (∀ j < k, ¬ divergesAt iws tws j) → divergesAt iws tws k →
      diagnoseLoop iws tws
        = some (if iws.getD k "" = "" then Diagnosis.missing (tws.getD k "")
                else Diagnosis.typo (iws.getD k "") (tws.getD k "")))
    ∧ ((∀ j < tws.length, ¬ divergesAt iws tws j) → diagnoseLoop iws tws = none)
    ∧ (diagnoseLoop (splitWsJs (cleanForTokens s.currentInput))
          (splitWsJs (cleanForTokens w.exampleSentence)) = none →
      diagnoseMismatch s.currentInput w.exampleSentence
        = if (splitWsJs (cleanForTokens w.exampleSentence)).length
              < (splitWsJs (cleanForTokens s.currentInput)).length
          then Diagnosis.extraWords else Diagnosis.generic)
    ∧ diagnoseMismatch "I like the dog" "I like the cat" = Diagnosis.typo "dog" "cat" := by
  refine ⟨fun hm => ?_, fun hm => ?_, diagnoseLoop_eq_some iws tws k,
    diagnoseLoop_eq_none iws tws, fun hnone => ?_, by decide⟩
  · rw [handleCopySentenceSubmit, if_pos (by simpa using hm)]
  · rw [handleCopySentenceSubmit, if_neg (by simpa using hm)]
    exact ⟨rfl, rfl, rfl, rfl⟩
  · simp only [diagnoseMismatch, hnone]

/-- Witness for C7: a concrete mismatching submission and the concrete
first-divergence run. -/
theorem C7_copy_sentence_witness :
    (handleCopySentenceSubmit sampleWord (setWordInput "I like the dog" initialDrillState)).points
      = 0
    ∧ diagnoseLoop ["i", "like", "the", "dog"] ["i", "like", "the", "cat"]
        = some (Diagnosis.typo "dog" "cat") := by
  have h := C7_copy_sentence sampleWord (setWordInput "I like the dog" initialDrillState)
    ["i", "like", "the", "dog"] ["i", "like", "the", "cat"] 3
  refine ⟨(h.2.1 (by decide)).2.1, ?_⟩
  have h2 := h.2.2.1 (by decide) (by decide) (by decide)
  simpa using h2

end RealuseEnglish
